import Mathlib

/-
Verification of the puzzlefs image engine against its specification.

Shallow embedding of the sources:
  src/oci/src/lib.rs        (Image::put_blob, Image::open, Image::add_tag)
  src/oci/src/descriptor.rs (Descriptor and its annotation accessors)
  src/reader/src/fuse.rs    (the kernel-filesystem adapter surface)
  src/compression/src/lib.rs (the Compression trait shape)

Bytes are modelled as `List Nat`; digests are byte lists.  External
collaborators (the sha2 crate's SHA-256 and the fs-verity fingerprint
oracle) are passed as function parameters `H` and `V`, matching the
spec's treatment of digesting and the integrity facility as opaque.
Repository code that is not under src/ (the concrete codecs, the format
crate's Inode types, index.rs, the reader's puzzlefs.rs) is modelled
from the spec, each such definition marked `Modelled from the spec:`.
-/

namespace PuzzleFS

/-- Association-list model of Rust's `HashMap<String, String>` used for
descriptor annotations.  `mapGet` returns the value at a key. -/
def mapGet : List (String × String) → String → Option String
  | [], _ => none
  | (k, v) :: rest, key => if k = key then some v else mapGet rest key

/-- Model of `HashMap::insert`: replaces the value stored at the key,
appends a fresh entry otherwise. -/
def mapInsert : List (String × String) → String → String → List (String × String)
  | [], key, v => [(key, v)]
  | (k, v0) :: rest, key, v =>
    if k = key then (key, v) :: rest else (k, v0) :: mapInsert rest key v

/-- Model of `HashMap::remove_entry`: drops every entry at the key (a
Rust hash map holds at most one, so this is the same operation). -/
def mapRemove : List (String × String) → String → List (String × String)
  | [], _ => []
  | (k, v) :: rest, key =>
    if k = key then mapRemove rest key else (k, v) :: mapRemove rest key

/-- Reserved annotation key naming the tag of an index entry;
`NAME_ANNOTATION = "org.opencontainers.image.ref.name"` in
src/oci/src/descriptor.rs. -/
def nameAnnotKey : String := "org.opencontainers.image.ref.name"

/-- Embedding of `Descriptor` from src/oci/src/descriptor.rs.  The
`annots` field models the `annotations` hash map. -/
structure Descriptor where
  digest : List Nat
  size : Nat
  media_type : String
  annots : List (String × String)
  fs_verity_digest : List Nat
  compressed : Bool
deriving DecidableEq

/-- Embedding of `Descriptor::new` (descriptor.rs:19-34): five
parameters, the last being the `compressed` flag; annotations start
empty. -/
def Descriptor.new (digest : List Nat) (size : Nat) (media_type : String)
    (fs_verity_digest : List Nat) (compressed : Bool) : Descriptor :=
  ⟨digest, size, media_type, [], fs_verity_digest, compressed⟩

/-- Embedding of `Descriptor::set_name` (descriptor.rs:36-39). -/
def Descriptor.set_name (d : Descriptor) (name : String) : Descriptor :=
  { d with annots := mapInsert d.annots nameAnnotKey name }

/-- Embedding of `Descriptor::get_name` (descriptor.rs:41-43). -/
def Descriptor.get_name (d : Descriptor) : Option String :=
  mapGet d.annots nameAnnotKey

/-- Embedding of `Descriptor::remove_name` (descriptor.rs:45-47). -/
def Descriptor.remove_name (d : Descriptor) : Descriptor :=
  { d with annots := mapRemove d.annots nameAnnotKey }

/-- Embedding of the `Compression` trait of src/compression/src/lib.rs
restricted to what `put_blob` consumes: the streaming compressor (as a
function on the full byte stream) and `append_extension`. -/
structure Codec where
  compress : List Nat → List Nat
  append_extension : String → String

/-- Modelled from the spec: the identity ("noop") codec.  Its
implementation file src/compression/src/noop.rs is not under src/; the
spec fixes it as the identity codec, so `compress` is the identity map
and no extension suffix is appended. -/
def noopCodec : Codec := ⟨fun b => b, fun mt => mt⟩

/-- Modelled from the spec: the seekable zstd codec.  Its implementation
file src/compression/src/zstd_wrapper.rs is not under src/; the spec
fixes it as "a seekable frame-based codec (zstd with a skippable seek
table)" whose media-type suffix is "+zstd".  Only the framing overhead
matters below, so the model wraps the payload between the 4-byte zstd
frame magic and an 8-byte skippable-frame seek-table stub; any
frame-based encoding likewise changes the byte length of the stream. -/
def zstdCodec : Codec :=
  ⟨fun b => [40, 181, 47, 253] ++ b ++ [55, 164, 48, 24, 0, 0, 0, 0],
   fun mt => mt ++ "+zstd"⟩

/-- State of the content-addressed blob directory `blobs/sha256/`: an
association list from blob digest to the stored file's bytes.  (The
on-disk file name is the lowercase hex of the digest, a bijective
renaming of the digest itself.) -/
structure BlobStore where
  files : List (List Nat × List Nat)
deriving DecidableEq

/-- Lookup of a blob file by digest, modelling `path.exists()` plus a
read of the file at `blobs/sha256/<hex>`. -/
def assocFind : List (List Nat × List Nat) → List Nat → Option (List Nat)
  | [], _ => none
  | (k, v) :: rest, d => if k = d then some v else assocFind rest d

/-- Error surface of `put_blob`: the `AlreadyExists` io error raised
when the target file exists with different content (lib.rs:117-124),
carrying the existing file's digest and the new digest. -/
inductive StoreError where
  | alreadyExists (existing newDigest : List Nat)
deriving DecidableEq

/-- Embedding of `Image::put_blob` (src/oci/src/lib.rs:86-129).
`H` models SHA-256 over bytes (sha2 crate), `V` models
`get_fs_verity_digest`.  Following the source: the input is streamed
through the codec's compressor into a temp file; `size` is the return
value of `io::copy`, i.e. the number of bytes read from the INPUT
stream (the uncompressed length); the digest is the hash of the
compressed bytes; if the target path exists the existing file is
re-hashed and compared, otherwise the temp file is persisted.
`compressedArg` stands for the fifth argument of `Descriptor::new`,
which the source call (lib.rs:103-108) omits — see the development
around `putBlob_compressed_free`. -/
def putBlob (H V : List Nat → List Nat) (c : Codec) (mtName : String)
    (compressedArg : Bool) (store : BlobStore) (buf : List Nat) :
    Except StoreError (Descriptor × BlobStore) :=
  let compressed_data := c.compress buf
  let size := buf.length
  let digest := H compressed_data
  let media_type := c.append_extension mtName
  let descriptor := Descriptor.new digest size media_type (V compressed_data) compressedArg
  match assocFind store.files digest with
  | some existing =>
    if H existing = digest then
      .ok (descriptor, store)
    else
      .error (.alreadyExists (H existing) digest)
  | none =>
    .ok (descriptor, ⟨(digest, compressed_data) :: store.files⟩)

/-- Concrete stand-in for the SHA-256 parameter in witnesses and
counterexamples: a one-byte digest derived from the length. -/
def hLen (b : List Nat) : List Nat := [b.length % 256]

/-- Concrete stand-in for the fs-verity fingerprint parameter. -/
def vZero (_ : List Nat) : List Nat := [0]

/-- Modelled from the spec: the image index (src/oci/src/index.rs is
not under src/).  The spec fixes it as "{manifests: ordered list of
Descriptor}"; `Image::add_tag` in lib.rs manipulates exactly that
`manifests` list. -/
structure Index where
  manifests : List Descriptor
deriving DecidableEq

/-- Error surface of `add_tag`: `open_raw_blob` fails when the
descriptor's blob file is absent (lib.rs:217-218). -/
inductive TagError where
  | blobMissing
deriving DecidableEq

/-- Body of the untagging loop of `Image::add_tag` (lib.rs:222-230)
applied to one manifest: a descriptor whose `get_name` equals the tag
has its name annotation removed, every other descriptor is kept
unchanged. -/
def untag1 (name : String) (m : Descriptor) : Descriptor :=
  if m.get_name = some name then m.remove_name else m

/-- Embedding of `Image::add_tag` (src/oci/src/lib.rs:216-235): check
that the blob named by the descriptor exists, strip the tag annotation
from every index entry currently carrying it, then append the new
descriptor annotated with the tag.  The index read by `get_index` and
written back by `put_index` is threaded as a value. -/
def addTag (store : BlobStore) (idx : Index) (name : String) (desc : Descriptor) :
    Except TagError Index :=
  match assocFind store.files desc.digest with
  | none => .error .blobMissing
  | some _ =>
    let manifests := idx.manifests.map (untag1 name)
    .ok ⟨manifests ++ [desc.set_name name]⟩

/-- Number of index entries currently annotated with a given tag; the
measure used to state the uniqueness invariant. -/
def tagCountL (name : String) (l : List Descriptor) : Nat :=
  (l.filter (fun m => decide (m.get_name = some name))).length

/-- Tag count over a whole index. -/
def tagCount (idx : Index) (name : String) : Nat :=
  tagCountL name idx.manifests

/-- Expected OCI-layout version constant
`PUZZLEFS_IMAGE_LAYOUT_VERSION` (lib.rs:31). -/
def PUZZLEFS_IMAGE_LAYOUT_VERSION : String := "puzzlefs-dev"

/-- Error surface of `Image::open`: the `InvalidImageVersion` variant
of the format crate's `WireFormatError`, carrying the offending
version string (spec section 7; the format crate is not under src/). -/
inductive ImageError where
  | invalidImageVersion (v : String)
deriving DecidableEq

/-- Embedding of the version gate of `Image::open`
(src/oci/src/lib.rs:62-76).  The surrounding io (reading `oci-layout`,
JSON decoding) is outside the model: the input is the parsed
`imageLayoutVersion` string, the only datum the gate inspects. -/
def imageOpen (version : String) : Except ImageError Unit :=
  if version ≠ PUZZLEFS_IMAGE_LAYOUT_VERSION then
    .error (.invalidImageVersion version)
  else
    .ok ()

/-- Errno values the adapter replies with, mirroring the
`nix::errno::Errno` constants named in src/reader/src/fuse.rs. -/
inductive Errno where
  | EROFS
  | EISNAM
  | ENOMEDIUM
  | EDQUOT
  | ENOLCK
  | ENOENT
  | EINVAL
  | EIO
deriving DecidableEq

/-- Modelled from the spec: the format crate's `InodeMode` (the format
crate is not under src/).  The spec fixes the variants File, Dir, Fifo,
Chr{rdev}, Blk{rdev}, Lnk, Sock; fuse.rs matches on exactly these. -/
inductive FormatInodeMode where
  | File
  | Dir
  | Fifo
  | Chr (rdev : Nat)
  | Blk (rdev : Nat)
  | Lnk
  | Sock
deriving DecidableEq

/-- Modelled from the spec: the format crate's `Inode`
"{ino, uid, gid, permissions, mode}" (spec section 3); fuse.rs reads
`ino`, `uid`, `gid` and `mode` from it. -/
structure FormatInode where
  ino : Nat
  uid : Nat
  gid : Nat
  permissions : Nat
  mode : FormatInodeMode
deriving DecidableEq

/-- Modelled from the spec: the reader's summarised inode mode
(src/reader/src/puzzlefs.rs is not under src/); fuse.rs matches it
against `File`, `Dir` and `Other`. -/
inductive ReaderInodeMode where
  | File
  | Dir
  | Other
deriving DecidableEq

/-- Modelled from the spec: the reader's `Inode` wrapper
(src/reader/src/puzzlefs.rs is not under src/).  fuse.rs uses its
`inode` field (the format inode), its summarised `mode`, and its
`file_len()` accessor, modelled as the `file_len` field (the logical
size for regular files, absent otherwise). -/
structure Inode where
  inode : FormatInode
  mode : ReaderInodeMode
  file_len : Option Nat
deriving DecidableEq

/-- File types of the fuse crate's `FileType` used by the adapter. -/
inductive FileType where
  | RegularFile
  | Directory
  | NamedPipe
  | CharDevice
  | BlockDevice
  | Symlink
  | Socket
deriving DecidableEq

/-- Embedding of `mode_to_fuse_type` (src/reader/src/fuse.rs:23-36);
the catch-all arm over the format mode replies EINVAL. -/
def mode_to_fuse_type (i : Inode) : Except Errno FileType :=
  match i.mode with
  | .File => .ok .RegularFile
  | .Dir => .ok .Directory
  | .Other =>
    match i.inode.mode with
    | .Fifo => .ok .NamedPipe
    | .Chr _ => .ok .CharDevice
    | .Blk _ => .ok .BlockDevice
    | .Lnk => .ok .Symlink
    | .Sock => .ok .Socket
    | _ => .error .EINVAL

/-- Embedding of the fuse crate's `FileAttr` record as filled in by
`Fuse::_getattr` (timestamps as second/nanosecond pairs). -/
structure FileAttr where
  ino : Nat
  size : Nat
  blocks : Nat
  atime : Nat × Nat
  mtime : Nat × Nat
  ctime : Nat × Nat
  crtime : Nat × Nat
  kind : FileType
  perm : Nat
  nlink : Nat
  uid : Nat
  gid : Nat
  rdev : Nat
  flags : Nat
deriving DecidableEq

/-- Embedding of `Fuse::_getattr` (src/reader/src/fuse.rs:49-69).
`findInode` abstracts `self.pfs.find_inode` (puzzlefs.rs is not under
src/).  Every literal field below is copied from the source: zero
timestamps and block count, `perm: 0o644`, `nlink: 0`, `rdev: 0`,
`flags: 0`, while ino/uid/gid come from the stored format inode and
the size from `file_len().unwrap_or(0)`. -/
def fuseGetattr (findInode : Nat → Except Errno Inode) (ino : Nat) :
    Except Errno FileAttr :=
  match findInode ino with
  | .error e => .error e
  | .ok ic =>
    match mode_to_fuse_type ic with
    | .error e => .error e
    | .ok kind =>
      .ok ⟨ic.inode.ino, ic.file_len.getD 0, 0, (0, 0), (0, 0), (0, 0), (0, 0),
           kind, 0o644, 0, ic.inode.uid, ic.inode.gid, 0, 0⟩

/-- Embedding of `Fuse::_lookup` (src/reader/src/fuse.rs:43-47).
`dirLookup` abstracts `dir.dir_lookup(name)` of the reader (not under
src/): it resolves a name inside a directory inode to a child inode
number. -/
def fuseLookup (findInode : Nat → Except Errno Inode)
    (dirLookup : Inode → String → Except Errno Nat)
    (parent : Nat) (name : String) : Except Errno FileAttr :=
  match findInode parent with
  | .error e => .error e
  | .ok dir =>
    match dirLookup dir name with
    | .error e => .error e
    | .ok ino => fuseGetattr findInode ino

/-- Linux values of the `nix::fcntl::OFlag` constants the adapter
names (O_RDONLY is the zero access mode). -/
def O_RDONLY : Nat := 0
def O_WRONLY : Nat := 0o1
def O_RDWR : Nat := 0o2
def O_CREAT : Nat := 0o100
def O_EXCL : Nat := 0o200
def O_NOCTTY : Nat := 0o400
def O_TRUNC : Nat := 0o1000
def O_APPEND : Nat := 0o2000
def O_NONBLOCK : Nat := 0o4000
def O_DSYNC : Nat := 0o10000
def O_ASYNC : Nat := 0o20000
def O_DIRECT : Nat := 0o40000
def O_LARGEFILE : Nat := 0o100000
def O_DIRECTORY : Nat := 0o200000
def O_NOFOLLOW : Nat := 0o400000
def O_NOATIME : Nat := 0o1000000
def O_CLOEXEC : Nat := 0o2000000
def O_SYNC : Nat := 0o4010000
def O_PATH : Nat := 0o10000000
def O_TMPFILE : Nat := 0o20200000

/-- Union of the known `OFlag` bits: the domain of
`OFlag::from_bits_truncate` (nix crate). -/
def oflagBits : Nat :=
  O_WRONLY ||| O_RDWR ||| O_CREAT ||| O_EXCL ||| O_NOCTTY ||| O_TRUNC |||
  O_APPEND ||| O_NONBLOCK ||| O_DSYNC ||| O_ASYNC ||| O_DIRECT |||
  O_LARGEFILE ||| O_DIRECTORY ||| O_NOFOLLOW ||| O_NOATIME ||| O_CLOEXEC |||
  O_SYNC ||| O_PATH ||| O_TMPFILE

/-- The allowed open flags of `Fuse::_open` (fuse.rs:72-73):
`O_RDONLY | O_PATH | O_NONBLOCK | O_DIRECTORY`. -/
def allowed_flags : Nat := O_RDONLY ||| O_PATH ||| O_NONBLOCK ||| O_DIRECTORY

/-- Embedding of `OFlag::from_bits_truncate`: unknown bits are
dropped. -/
def from_bits_truncate (f : Nat) : Nat := f &&& oflagBits

/-- Requests of the fuse `Filesystem` trait as implemented by the
adapter (src/reader/src/fuse.rs:109-444), with their data payloads.
`openf` stands for the `open` method (`open` is a Lean keyword);
`readdir` is omitted (its reply buffer protocol carries no content any
claim mentions). -/
inductive FuseRequest where
  | setattr (ino : Nat)
  | mknod (parent : Nat) (name : String) (mode rdev : Nat)
  | mkdir (parent : Nat) (name : String) (mode : Nat)
  | unlink (parent : Nat) (name : String)
  | rmdir (parent : Nat) (name : String)
  | symlink (parent : Nat) (name target : String)
  | rename (parent : Nat) (name : String) (newparent : Nat) (newname : String)
  | link (ino newparent : Nat) (newname : String)
  | write (ino fh : Nat) (offset : Int) (data : List Nat) (flags : Nat)
  | flush (ino fh lockOwner : Nat)
  | fsync (ino fh : Nat) (datasync : Bool)
  | fsyncdir (ino fh : Nat) (datasync : Bool)
  | setxattr (ino : Nat) (name : String) (value : List Nat) (flags position : Nat)
  | removexattr (ino : Nat) (name : String)
  | create (parent : Nat) (name : String) (mode flags : Nat)
  | getlk (ino fh lockOwner start finish typ pid : Nat)
  | setlk (ino fh lockOwner start finish typ pid : Nat) (sleep : Bool)
  | lookup (parent : Nat) (name : String)
  | getattr (ino : Nat)
  | readlink (ino : Nat)
  | openf (ino flags : Nat)
  | opendir (ino flags : Nat)
  | read (ino fh offset : Nat) (size : Nat)
  | release (ino fh flags : Nat)
  | releasedir (ino fh flags : Nat)
  | statfs (ino : Nat)
  | getxattr (ino : Nat) (name : String) (size : Nat)
  | listxattr (ino : Nat) (size : Nat)
  | access (ino mask : Nat)
  | bmap (ino blocksize idx : Nat)
deriving DecidableEq

/-- Replies of the adapter: an errno, an entry or attr record, an open
handle, read data, a bare ok, or the statfs counters
(blocks, bfree, bavail, files, ffree, bsize, namelen, frsize). -/
inductive FuseReply where
  | error (e : Errno)
  | entry (a : FileAttr)
  | attr (a : FileAttr)
  | opened (fh : Nat) (flags : Nat)
  | data (bytes : List Nat)
  | ok
  | statfs (blocks bfree bavail files ffree bsize namelen frsize : Nat)
deriving DecidableEq

/-- Embedding of `Fuse::_open` (src/reader/src/fuse.rs:71-81): truncate
the raw flag word to known OFlag bits and reject with EROFS unless the
result is contained in `allowed_flags`; otherwise reply with a stateless
handle 0 and the original flags. -/
def fuseOpen (flagsI : Nat) : FuseReply :=
  if from_bits_truncate flagsI &&& allowed_flags = from_bits_truncate flagsI then
    .opened 0 flagsI
  else
    .error .EROFS

/-- Dispatch of the adapter's `Filesystem` implementation
(src/reader/src/fuse.rs:109-444), one arm per method, each reply copied
from the source.  `findInode`, `dirLookup` abstract the reader lookups
and `readFn` abstracts `Fuse::_read`'s use of `file_read`
(puzzlefs.rs, not under src/). -/
def fuseHandle (findInode : Nat → Except Errno Inode)
    (dirLookup : Inode → String → Except Errno Nat)
    (readFn : Nat → Nat → Nat → Except Errno (List Nat)) :
    FuseRequest → FuseReply
  | .setattr _ => .error .EROFS
  | .mknod _ _ _ _ => .error .EROFS
  | .mkdir _ _ _ => .error .EROFS
  | .unlink _ _ => .error .EROFS
  | .rmdir _ _ => .error .EROFS
  | .symlink _ _ _ => .error .EROFS
  | .rename _ _ _ _ => .error .EROFS
  | .link _ _ _ => .error .EROFS
  | .write _ _ _ _ _ => .error .EROFS
  | .flush _ _ _ => .error .EROFS
  | .fsync _ _ _ => .error .EROFS
  | .fsyncdir _ _ _ => .error .EROFS
  | .setxattr _ _ _ _ _ => .error .EROFS
  | .removexattr _ _ => .error .EROFS
  | .create _ _ _ _ => .error .EROFS
  | .getlk _ _ _ _ _ _ _ => .error .EROFS
  | .setlk _ _ _ _ _ _ _ _ => .error .EROFS
  | .lookup parent name =>
    match fuseLookup findInode dirLookup parent name with
    | .ok a => .entry a
    | .error e => .error e
  | .getattr ino =>
    match fuseGetattr findInode ino with
    | .ok a => .attr a
    | .error e => .error e
  | .readlink _ => .error .EISNAM
  | .openf _ flags => fuseOpen flags
  | .opendir _ flags => fuseOpen flags
  | .read ino _ offset size =>
    match readFn ino offset size with
    | .ok d => .data d
    | .error e => .error e
  | .release _ _ _ => .ok
  | .releasedir _ _ _ => .ok
  | .statfs _ => .statfs 0 0 0 0 0 0 256 0
  | .getxattr _ _ _ => .error .ENOMEDIUM
  | .listxattr _ _ => .error .EDQUOT
  | .access _ _ => .ok
  | .bmap _ _ _ => .error .ENOLCK

/-- Classifier for the writing surface of the adapter: the mutating
and write-locking methods the read-only filesystem must refuse. -/
def isWriteReq : FuseRequest → Bool
  | .setattr _ => true
  | .mknod _ _ _ _ => true
  | .mkdir _ _ _ => true
  | .unlink _ _ => true
  | .rmdir _ _ => true
  | .symlink _ _ _ => true
  | .rename _ _ _ _ => true
  | .link _ _ _ => true
  | .write _ _ _ _ _ => true
  | .flush _ _ _ => true
  | .fsync _ _ _ => true
  | .fsyncdir _ _ _ => true
  | .setxattr _ _ _ _ _ => true
  | .removexattr _ _ => true
  | .create _ _ _ _ => true
  | .getlk _ _ _ _ _ _ _ => true
  | .setlk _ _ _ _ _ _ _ _ => true
  | _ => false

/-- Trivial reader-lookup stand-ins for witnesses that do not touch the
metadata path. -/
def noFind (_ : Nat) : Except Errno Inode := .error .ENOENT

/-- Trivial directory-lookup stand-in. -/
def noDirLookup (_ : Inode) (_ : String) : Except Errno Nat := .error .ENOENT

/-- Trivial read stand-in. -/
def noRead (_ _ _ : Nat) : Except Errno (List Nat) := .error .ENOENT

/-- Concrete symlink inode used to refute the readlink claim. -/
def symInode : Inode := ⟨⟨2, 0, 0, 0o777, .Lnk⟩, .Other, none⟩

/-- Concrete inode table holding the symlink at inode number 2. -/
def symFind (n : Nat) : Except Errno Inode :=
  if n = 2 then .ok symInode else .error .ENOENT

/-- Concrete character-device inode with permissions 0o777 and
rdev 5, used to witness the attribute claim. -/
def devInode : Inode := ⟨⟨3, 1000, 100, 0o777, .Chr 5⟩, .Other, none⟩

/-- Inode table resolving every number to the device inode. -/
def devFind (_ : Nat) : Except Errno Inode := .ok devInode

/-- Directory lookup resolving every name to inode number 3. -/
def devLookup (_ : Inode) (_ : String) : Except Errno Nat := .ok 3

/-- The attribute record `_getattr` produces for `devInode`. -/
def devAttr : FileAttr :=
  ⟨3, 0, 0, (0, 0), (0, 0), (0, 0), (0, 0), .CharDevice, 0o644, 0, 1000, 100, 0, 0⟩

/-- Concrete descriptor and store fixtures for the put-blob and tagging
witnesses. -/
def wDesc : Descriptor := Descriptor.new [2] 2 "chunk" [0] false

/-- Store holding exactly the compressed bytes `putBlob` writes for the
input [7, 7] under `hLen`/`noopCodec`. -/
def wStore : BlobStore := ⟨[([2], [7, 7])]⟩

/-- Store whose file at digest [0] has content [5], which re-hashes to
[1] ≠ [0]: the broken-invariant fixture for the AlreadyExists claim. -/
def clashStore : BlobStore := ⟨[([0], [5])]⟩

/-- Blob store containing the two blobs the tagging witness names. -/
def tagStore : BlobStore := ⟨[([1], [9]), ([2], [8])]⟩

/-- First tagged descriptor (digest [1]). -/
def tagD1 : Descriptor := ⟨[1], 4, "m", [], [0], false⟩

/-- Second tagged descriptor (digest [2]). -/
def tagD2 : Descriptor := ⟨[2], 5, "m", [], [0], false⟩

/-- Index after tagging `tagD1` as "v1" in an empty index. -/
def tagIdx1 : Index := ⟨[tagD1.set_name "v1"]⟩

/-- Index after re-tagging "v1" to `tagD2`: the first descriptor is
stripped of its name, the second carries it. -/
def tagIdx2 : Index := ⟨[(tagD1.set_name "v1").remove_name, tagD2.set_name "v1"]⟩

/-- Inserting at a key makes the key map to the inserted value. -/
theorem mapGet_insert_self (m : List (String × String)) (key v : String) :
    mapGet (mapInsert m key v) key = some v := by
  induction m with
  | nil => simp [mapInsert, mapGet]
  | cons p rest ih =>
    by_cases h : p.1 = key
    · simp [mapInsert, mapGet, h]
    · simp [mapInsert, mapGet, h, ih]

/-- Removing a key erases it from the map. -/
theorem mapGet_remove_self (m : List (String × String)) (key : String) :
    mapGet (mapRemove m key) key = none := by
  induction m with
  | nil => rfl
  | cons p rest ih =>
    by_cases h : p.1 = key
    · simp [mapRemove, h, ih]
    · simp [mapRemove, mapGet, h, ih]

/-- A freshly named descriptor reports that name. -/
theorem get_name_set_name (d : Descriptor) (n : String) :
    (d.set_name n).get_name = some n :=
  mapGet_insert_self d.annots nameAnnotKey n

/-- A descriptor whose name was removed reports no name. -/
theorem get_name_remove_name (d : Descriptor) :
    d.remove_name.get_name = none :=
  mapGet_remove_self d.annots nameAnnotKey

/-- Untagging never leaves a descriptor carrying the stripped tag. -/
theorem untag1_not_named (name : String) (m : Descriptor) :
    ¬(untag1 name m).get_name = some name := by
  unfold untag1
  by_cases h : m.get_name = some name
  · simp [h, get_name_remove_name]
  · simp [h]

/-- After the untagging pass nothing in the list carries the tag. -/
theorem filter_untag_nil (name : String) (l : List Descriptor) :
    (l.map (untag1 name)).filter (fun m => decide (m.get_name = some name)) = [] := by
  induction l with
  | nil => rfl
  | cons a rest ih =>
    have hfalse : decide ((untag1 name a).get_name = some name) = false :=
      decide_eq_false (untag1_not_named name a)
    simp [List.filter_cons, hfalse, ih]

/-- The untagging pass cannot increase the count of any tag. -/
theorem tagCountL_untag_le (t name : String) (l : List Descriptor) :
    tagCountL t (l.map (untag1 name)) ≤ tagCountL t l := by
  induction l with
  | nil => exact Nat.le_refl 0
  | cons a rest ih =>
    simp only [List.map_cons, tagCountL, List.filter_cons] at *
    by_cases h2 : a.get_name = some name
    · have hd : decide ((untag1 name a).get_name = some t) = false := by
        simp [untag1, h2, get_name_remove_name]
      rw [hd]
      cases hdec : decide (a.get_name = some t) with
      | false => simpa using ih
      | true =>
        simp only [List.length_cons]
        exact Nat.le_trans ih (Nat.le_succ _)
    · have huntag : untag1 name a = a := by simp [untag1, h2]
      rw [huntag]
      cases hdec : decide (a.get_name = some t) with
      | false => simpa using ih
      | true =>
        simp only [List.length_cons]
        exact Nat.succ_le_succ ih

/-- C1 (amended): the Descriptor returned by `put_blob` has `size`
equal to the number of bytes read from the input stream — the
UNCOMPRESSED length — while the blob file stored for a fresh digest
holds the codec's compressed output; the two byte counts therefore
coincide exactly when the codec preserves length (in particular for
the identity codec), not for every codec. -/
theorem putBlob_size_uncompressed (H V : List Nat → List Nat) (c : Codec)
    (mt : String) (arg : Bool) (store : BlobStore) (b : List Nat)
    (d : Descriptor) (s' : BlobStore)
    (h : putBlob H V c mt arg store b = .ok (d, s')) :
    d.size = b.length ∧
    (assocFind store.files (H (c.compress b)) = none →
      assocFind s'.files d.digest = some (c.compress b)) := by
  simp only [putBlob] at h
  cases hfind : assocFind store.files (H (c.compress b)) with
  | none =>
    rw [hfind] at h
    cases h
    exact ⟨rfl, fun _ => by simp [assocFind, Descriptor.new]⟩
  | some existing =>
    simp only [hfind] at h
    by_cases heq : H existing = H (c.compress b)
    · rw [if_pos heq] at h
      cases h
      exact ⟨rfl, fun hnone => Option.noConfusion hnone⟩
    · rw [if_neg heq] at h
      cases h

/-- Witness for C1's amended statement at the identity codec: the
stored file equals the input, so its length matches the descriptor
size. -/
theorem putBlob_size_uncompressed_witness :
    wDesc.size = [7, 7].length ∧ assocFind wStore.files wDesc.digest = some [7, 7] := by
  have h := putBlob_size_uncompressed hLen vZero noopCodec "chunk" false ⟨[]⟩ [7, 7]
    wDesc wStore rfl
  exact ⟨h.1, h.2 rfl⟩

/-- C1 counterexample: with the zstd codec on the three-byte input
[1, 2, 3], `put_blob` reports size 3 (the uncompressed input length)
while the blob file stored under the returned digest is 15 bytes long
(the framed compressed artifact), so `Descriptor.size` does not equal
the stored blob file's byte length. -/
theorem putBlob_size_counterexample :
    (putBlob hLen vZero zstdCodec "chunk" true ⟨[]⟩ [1, 2, 3]).map
        (fun p => (p.1.size, (assocFind p.2.files p.1.digest).map List.length)) =
      .ok (3, some 15) ∧ (3 : Nat) ≠ 15 := by
  exact ⟨rfl, by decide⟩

/-- C2: putting the same content twice with the same codec and media
type returns the same Descriptor both times; the first call adds
exactly one file to the blob directory and the second call leaves the
store untouched (starting from a store without the digest — in
particular from a fresh image, where exactly one file results). -/
theorem putBlob_double (H V : List Nat → List Nat) (c : Codec) (mt : String)
    (arg : Bool) (store : BlobStore) (b : List Nat)
    (h : assocFind store.files (H (c.compress b)) = none) :
    putBlob H V c mt arg store b =
      .ok (Descriptor.new (H (c.compress b)) b.length (c.append_extension mt)
            (V (c.compress b)) arg,
          ⟨(H (c.compress b), c.compress b) :: store.files⟩) ∧
    putBlob H V c mt arg ⟨(H (c.compress b), c.compress b) :: store.files⟩ b =
      .ok (Descriptor.new (H (c.compress b)) b.length (c.append_extension mt)
            (V (c.compress b)) arg,
          ⟨(H (c.compress b), c.compress b) :: store.files⟩) := by
  constructor
  · simp only [putBlob]
    rw [h]
  · simp only [putBlob]
    simp [assocFind]

/-- Witness for C2 from an empty store: both calls return the same
descriptor and the store holds exactly one file. -/
theorem putBlob_double_witness :
    putBlob hLen vZero noopCodec "chunk" false ⟨[]⟩ [7] =
      .ok (⟨[1], 1, "chunk", [], [0], false⟩, ⟨[([1], [7])]⟩) ∧
    putBlob hLen vZero noopCodec "chunk" false ⟨[([1], [7])]⟩ [7] =
      .ok (⟨[1], 1, "chunk", [], [0], false⟩, ⟨[([1], [7])]⟩) := by
  exact putBlob_double hLen vZero noopCodec "chunk" false ⟨[]⟩ [7] rfl

/-- C3: when the blob file for the computed digest already exists,
`put_blob` fails with AlreadyExists (carrying both digests) if the
existing file's hash differs from the new digest, and succeeds
returning the descriptor with the store unchanged — the file is not
replaced — if the hashes agree. -/
theorem putBlob_existing_blob (H V : List Nat → List Nat) (c : Codec)
    (mt : String) (arg : Bool) (store : BlobStore) (b existing : List Nat)
    (hfind : assocFind store.files (H (c.compress b)) = some existing) :
    (¬H existing = H (c.compress b) →
      putBlob H V c mt arg store b =
        .error (.alreadyExists (H existing) (H (c.compress b)))) ∧
    (H existing = H (c.compress b) →
      putBlob H V c mt arg store b =
        .ok (Descriptor.new (H (c.compress b)) b.length (c.append_extension mt)
              (V (c.compress b)) arg, store)) := by
  constructor
  · intro hne
    simp only [putBlob, hfind]
    rw [if_neg hne]
  · intro heq
    simp only [putBlob, hfind]
    rw [if_pos heq]

/-- Witness for C3's failure branch: the store file at digest [0] has
content [5], which re-hashes to [1] ≠ [0], so the put fails with
AlreadyExists. -/
theorem putBlob_existing_blob_witness :
    putBlob hLen vZero noopCodec "chunk" false clashStore [] =
      .error (.alreadyExists [1] [0]) := by
  have h := putBlob_existing_blob hLen vZero noopCodec "chunk" false clashStore [] [5] rfl
  exact h.1 (by decide)

/-- C5 evaluation: the `compressed` field of the descriptor returned
by `put_blob` equals the free `compressedArg` placeholder whatever the
codec is.  The source call `Descriptor::new(digest.into(), size,
media_type, get_fs_verity_digest(..))` (lib.rs:103-108) passes no
fifth argument although `Descriptor::new` (descriptor.rs:19-25)
requires `compressed: bool`, so the code never computes the
"codec is the identity codec" condition the claim describes. -/
theorem putBlob_compressed_free (H V : List Nat → List Nat) (c : Codec)
    (mt : String) (arg : Bool) (b : List Nat) :
    (putBlob H V c mt arg ⟨[]⟩ b).map (fun p => p.1.compressed) = .ok arg := rfl

/-- C6: the version gate of `Image::open` rejects every version string
other than "puzzlefs-dev" with InvalidImageVersion carrying that
string, and accepts exactly the expected constant. -/
theorem image_open_version (v : String) :
    (v ≠ PUZZLEFS_IMAGE_LAYOUT_VERSION →
      imageOpen v = .error (.invalidImageVersion v)) ∧
    (v = PUZZLEFS_IMAGE_LAYOUT_VERSION → imageOpen v = .ok ()) := by
  constructor
  · intro h
    simp [imageOpen, h]
  · intro h
    simp [imageOpen, h]

/-- Witness for C6 on a wrong and on the expected version string. -/
theorem image_open_version_witness :
    imageOpen "puzzlefs-oci" = .error (.invalidImageVersion "puzzlefs-oci") ∧
    imageOpen "puzzlefs-dev" = .ok () :=
  ⟨(image_open_version "puzzlefs-oci").1 (by decide),
   (image_open_version "puzzlefs-dev").2 rfl⟩

/-- C4: `add_tag` first strips the tag annotation from every index
entry carrying it and then appends the descriptor annotated with the
tag.  Consequently (i) if at most one entry carried any given tag
before, the same holds after, (ii) exactly one entry carries the added
tag afterwards, and (iii) after `add_tag(name, d)` followed by
`add_tag(name, d2)` the entries annotated `name` are exactly one with
digest `d2.digest`, while `d`'s entry is still present with its name
annotation removed (same digest, no name). -/
theorem add_tag_unique (store : BlobStore) (idx : Index) (name : String)
    (d d2 : Descriptor) (idx' idx'' : Index) (t : String)
    (hU : ∀ s, tagCount idx s ≤ 1)
    (h1 : addTag store idx name d = .ok idx')
    (h2 : addTag store idx' name d2 = .ok idx'') :
    tagCount idx' t ≤ 1 ∧
    tagCount idx' name = 1 ∧
    (idx''.manifests.filter (fun m => decide (m.get_name = some name))).map
        (fun m => m.digest) = [d2.digest] ∧
    (d.set_name name).remove_name ∈ idx''.manifests ∧
    ((d.set_name name).remove_name).get_name = none ∧
    ((d.set_name name).remove_name).digest = d.digest := by
  simp only [addTag] at h1 h2
  cases hf1 : assocFind store.files d.digest with
  | none => rw [hf1] at h1; exact Except.noConfusion h1
  | some w1 =>
    rw [hf1] at h1
    cases hf2 : assocFind store.files d2.digest with
    | none => rw [hf2] at h2; exact Except.noConfusion h2
    | some w2 =>
      rw [hf2] at h2
      cases h1
      cases h2
      have hname : (d.set_name name).get_name = some name := get_name_set_name d name
      have hname2 : (d2.set_name name).get_name = some name := get_name_set_name d2 name
      refine ⟨?_, ?_, ?_, ?_, ?_, ?_⟩
      · -- uniqueness is preserved for every tag t
        by_cases ht : t = name
        · subst ht
          show tagCountL t (idx.manifests.map (untag1 t) ++ [d.set_name t]) ≤ 1
          simp only [tagCountL, List.filter_append, List.length_append,
            filter_untag_nil]
          simp [hname]
        · show tagCountL t (idx.manifests.map (untag1 name) ++ [d.set_name name]) ≤ 1
          have hlast : decide ((d.set_name name).get_name = some t) = false := by
            simp [hname]
            exact fun hc => ht hc.symm
          simp only [tagCountL, List.filter_append, List.length_append]
          have h0 : (List.filter (fun m => decide (m.get_name = some t))
              [d.set_name name]).length = 0 := by
            simp [List.filter_cons, hlast]
          rw [h0, Nat.add_zero]
          exact Nat.le_trans (tagCountL_untag_le t name idx.manifests) (hU t)
      · -- exactly one holder of the added tag
        show tagCountL name (idx.manifests.map (untag1 name) ++ [d.set_name name]) = 1
        simp only [tagCountL, List.filter_append, List.length_append,
          filter_untag_nil]
        simp [hname]
      · -- after retagging, the holders of the tag are exactly [d2]
        rw [List.filter_append, filter_untag_nil]
        simp [hname2]
        rfl
      · -- the stripped first descriptor is still an index entry
        have hmem : d.set_name name ∈ idx.manifests.map (untag1 name) ++ [d.set_name name] :=
          List.mem_append_right _ (List.mem_singleton.mpr rfl)
        have := List.mem_map_of_mem (untag1 name) hmem
        rw [show untag1 name (d.set_name name) = (d.set_name name).remove_name from
          by simp [untag1, hname]] at this
        exact List.mem_append_left _ this
      · exact get_name_remove_name (d.set_name name)
      · rfl

/-- Witness for C4 on a two-blob store: tagging `tagD1` as "v1" in an
empty index and then retagging "v1" to `tagD2`. -/
theorem add_tag_unique_witness :
    tagCount tagIdx1 "v1" ≤ 1 ∧
    tagCount tagIdx1 "v1" = 1 ∧
    (tagIdx2.manifests.filter (fun m => decide (m.get_name = some "v1"))).map
        (fun m => m.digest) = [tagD2.digest] ∧
    (tagD1.set_name "v1").remove_name ∈ tagIdx2.manifests ∧
    ((tagD1.set_name "v1").remove_name).get_name = none ∧
    ((tagD1.set_name "v1").remove_name).digest = tagD1.digest := by
  exact add_tag_unique tagStore ⟨[]⟩ "v1" tagD1 tagD2 tagIdx1 tagIdx2 "v1"
    (fun _ => Nat.zero_le 1) rfl rfl

/-- C7: every mutating operation of the adapter — setattr, mknod,
mkdir, unlink, rmdir, symlink, rename, link, write, create and the
rest of the writing surface (flush, fsync, fsyncdir, setxattr,
removexattr, getlk, setlk) — replies EROFS, and open/opendir reject
any known open flag outside { O_RDONLY, O_PATH, O_NONBLOCK,
O_DIRECTORY } with EROFS as well. -/
theorem fuse_readonly (findInode : Nat → Except Errno Inode)
    (dirLookup : Inode → String → Except Errno Nat)
    (readFn : Nat → Nat → Nat → Except Errno (List Nat))
    (req : FuseRequest) (ino flagsI : Nat) :
    (isWriteReq req = true →
      fuseHandle findInode dirLookup readFn req = .error .EROFS) ∧
    (¬(from_bits_truncate flagsI &&& allowed_flags = from_bits_truncate flagsI) →
      fuseHandle findInode dirLookup readFn (.openf ino flagsI) = .error .EROFS ∧
      fuseHandle findInode dirLookup readFn (.opendir ino flagsI) = .error .EROFS) := by
  constructor
  · cases req <;> intro h <;> first | rfl | exact Bool.noConfusion h
  · intro h
    constructor
    · show fuseOpen flagsI = .error .EROFS
      unfold fuseOpen
      rw [if_neg h]
    · show fuseOpen flagsI = .error .EROFS
      unfold fuseOpen
      rw [if_neg h]

/-- Witness for C7: a write request replies EROFS and an open with the
O_WRONLY access mode replies EROFS. -/
theorem fuse_readonly_witness :
    fuseHandle noFind noDirLookup noRead (.write 7 0 0 [1] 0) = .error .EROFS ∧
    fuseHandle noFind noDirLookup noRead (.openf 7 O_WRONLY) = .error .EROFS := by
  have h := fuse_readonly noFind noDirLookup noRead (.write 7 0 0 [1] 0) 7 O_WRONLY
  exact ⟨h.1 rfl, (h.2 (by decide)).1⟩

/-- C8 (amended): the adapter does not implement readlink; it replies
with the EISNAM error for every inode, symlinks included, instead of
returning the link target. -/
theorem readlink_replies_eisnam (findInode : Nat → Except Errno Inode)
    (dirLookup : Inode → String → Except Errno Nat)
    (readFn : Nat → Nat → Nat → Except Errno (List Nat)) (ino : Nat) :
    fuseHandle findInode dirLookup readFn (.readlink ino) = .error .EISNAM := rfl

/-- C8 counterexample: inode 2 of `symFind` is a symlink, yet readlink
replies with the EISNAM error — an error reply, not the link target
the claim describes. -/
theorem readlink_counterexample :
    symInode.inode.mode = .Lnk ∧
    symFind 2 = .ok symInode ∧
    fuseHandle symFind noDirLookup noRead (.readlink 2) = .error .EISNAM :=
  ⟨rfl, rfl, rfl⟩

/-- C9 (amended): statfs replies with all-zero block, file and size
counters and a name-length limit of 256 for every inode. -/
theorem statfs_zeros_namelen (findInode : Nat → Except Errno Inode)
    (dirLookup : Inode → String → Except Errno Nat)
    (readFn : Nat → Nat → Nat → Except Errno (List Nat)) (ino : Nat) :
    fuseHandle findInode dirLookup readFn (.statfs ino) =
      .statfs 0 0 0 0 0 0 256 0 := rfl

/-- C9 counterexample: the statfs reply carries namelen 256, not the
255 the claim states. -/
theorem statfs_counterexample :
    fuseHandle noFind noDirLookup noRead (.statfs 1) = .statfs 0 0 0 0 0 0 256 0 ∧
    fuseHandle noFind noDirLookup noRead (.statfs 1) ≠ .statfs 0 0 0 0 0 0 255 0 :=
  ⟨rfl, by decide⟩

/-- C10: the attributes built by `_getattr` report permission bits
0o644 and rdev 0 whatever permissions or device numbers the stored
inode carries, while uid and gid are copied from the stored inode; and
a successful `_lookup` returns exactly `_getattr`'s record for the
resolved child inode, so the same holds for lookup replies. -/
theorem getattr_lookup_attrs (findInode : Nat → Except Errno Inode)
    (dirLookup : Inode → String → Except Errno Nat)
    (ino : Nat) (ic : Inode) (a : FileAttr)
    (parent : Nat) (name : String) (dir : Inode) (cino : Nat)
    (hfi : findInode ino = .ok ic)
    (hga : fuseGetattr findInode ino = .ok a)
    (hfp : findInode parent = .ok dir)
    (hdl : dirLookup dir name = .ok cino) :
    (a.perm = 0o644 ∧ a.rdev = 0 ∧ a.uid = ic.inode.uid ∧ a.gid = ic.inode.gid) ∧
    fuseLookup findInode dirLookup parent name = fuseGetattr findInode cino := by
  constructor
  · simp only [fuseGetattr, hfi] at hga
    cases hmt : mode_to_fuse_type ic with
    | error e =>
      simp only [hmt] at hga
      exact Except.noConfusion hga
    | ok kind =>
      simp only [hmt] at hga
      cases hga
      exact ⟨rfl, rfl, rfl, rfl⟩
  · simp only [fuseLookup, hfp, hdl]

/-- Witness for C10 on a character-device inode with permissions 0o777
and rdev 5: the reply still reports perm 0o644 and rdev 0 while taking
uid 1000 and gid 100 from the inode, and lookup reuses the same
attribute record. -/
theorem getattr_lookup_attrs_witness :
    (devAttr.perm = 0o644 ∧ devAttr.rdev = 0 ∧ devAttr.uid = devInode.inode.uid ∧
      devAttr.gid = devInode.inode.gid) ∧
    fuseLookup devFind devLookup 1 "dev" = fuseGetattr devFind 3 := by
  exact getattr_lookup_attrs devFind devLookup 3 devInode devAttr 1 "dev" devInode 3
    rfl rfl rfl rfl

end PuzzleFS
